import Mathlib

/-!
Verification of the AArch64 CPU model

A shallow embedding of `manticore/native/cpu/aarch64.py`: the register
table, the register file read/write contract, mnemonic canonicalization,
the cdecl and Linux-syscall ABIs, and operand read/write. Collaborator
classes that live outside this file in the repository (the base
`RegisterFile`, the `Register` cell, `Operators.EXTRACT`, `Abi.values_from`)
are modelled from the specification and marked as such.
-/

set_option maxRecDepth 100000

deriving instance DecidableEq for Except

namespace Manticore

/-- A symbolic expression of the external expression engine, kept opaque
except for the extraction node the register file builds. -/
inductive SymExpr where
  | var (name : String) (width : Nat)
  | extract (e : SymExpr) (offset width : Nat)
deriving DecidableEq, Repr

/-- A value held by a register cell: a concrete unsigned integer or an
opaque symbolic expression. -/
inductive Value where
  | concrete (n : Nat)
  | symbolic (e : SymExpr)
deriving DecidableEq, Repr

/-- Modelled from the spec: `Operators.EXTRACT` of the expression engine
(`manticore.core.smtlib`, not under `src/`): bounded extraction
`EXTRACT(value, offset, width)`, a bitmask `(value >> offset) & (2^width - 1)`
on a concrete value and an extraction expression on a symbolic one. -/
def EXTRACT : Value → Nat → Nat → Value
  | .concrete n, offset, width => .concrete ((n >>> offset) &&& (2 ^ width - 1))
  | .symbolic e, offset, width => .symbolic (.extract e offset width)

/-- Embeds `Aarch64RegisterFile.Regspec`: parent register name and bit width. -/
structure Regspec where
  parent : String
  size : Nat
deriving DecidableEq, Repr

/-- Embeds `Aarch64RegisterFile._table`: the register table, in the insertion
order of the Python dict (X/W pairs, SP/WSP, PC, the SIMD&FP views,
FPCR, FPSR, NZCV, XZR/WZR). -/
def aarch64Table : List (String × Regspec) :=
  ((List.range 31).flatMap fun i =>
    [("X" ++ toString i, ⟨"X" ++ toString i, 64⟩),
     ("W" ++ toString i, ⟨"X" ++ toString i, 32⟩)])
  ++ [("SP", ⟨"SP", 64⟩), ("WSP", ⟨"SP", 32⟩)]
  ++ [("PC", ⟨"PC", 64⟩)]
  ++ ((List.range 32).flatMap fun i =>
    [("Q" ++ toString i, ⟨"Q" ++ toString i, 128⟩),
     ("D" ++ toString i, ⟨"Q" ++ toString i, 64⟩),
     ("S" ++ toString i, ⟨"Q" ++ toString i, 32⟩),
     ("H" ++ toString i, ⟨"Q" ++ toString i, 16⟩),
     ("B" ++ toString i, ⟨"Q" ++ toString i, 8⟩)])
  ++ [("FPCR", ⟨"FPCR", 64⟩), ("FPSR", ⟨"FPSR", 64⟩)]
  ++ [("NZCV", ⟨"NZCV", 64⟩)]
  ++ [("XZR", ⟨"XZR", 64⟩), ("WZR", ⟨"XZR", 32⟩)]

/-- The `_aliases` dict passed to the base class in
`Aarch64RegisterFile.__init__`. -/
def aarch64Aliases : List (String × String) :=
  [("STACK", "SP"), ("FP", "X29"), ("IP1", "X17"), ("IP0", "X16"),
   ("LR", "X30")]

/-- Modelled from the spec: the base `RegisterFile._alias`
(`abstractcpu.py`, not under `src/`): the alias layer maps an alias name
to its canonical name and leaves every other name unchanged. -/
def aliasOf (name : String) : String :=
  (aarch64Aliases.lookup name).getD name

/-- Modelled from the spec: `contains(name)` of the base `RegisterFile`
(`abstractcpu.py`, not under `src/`): true iff `name` is a key of the
alias layer or of the register table. -/
def rfContains (name : String) : Bool :=
  (aarch64Aliases.lookup name).isSome || (aarch64Table.lookup name).isSome

/-- Failure modes of the register-file and operand layer, named after the
spec's error taxonomy.  `invalidRegisterError` embeds the failed
`assert register in self`, `valueOutOfRangeError` the failed
`assert value <= 2 ** size - 1`, `keyError` a failed dict subscript, and
`unsupportedOperandKindError` the operand layer's assertion failures and
`NotImplementedError` raises. -/
inductive RegError where
  | invalidRegisterError
  | valueOutOfRangeError
  | keyError
  | unsupportedOperandKindError
deriving DecidableEq, Repr

/-- Embeds `Aarch64RegisterFile._registers`: one cell per parent register.  The
cells themselves are `Register` objects (`register.py`, not under `src/`),
modelled from the spec as plain storage: `read` returns the stored value,
`write` replaces it. -/
abbrev RegFileState := List (String × Value)

/-- The register cache after `Aarch64RegisterFile.__init__`: one cell per
name that is its own parent. -/
def initRegisters : RegFileState :=
  aarch64Table.filterMap fun p =>
    if p.1 = p.2.parent then some (p.1, Value.concrete 0) else none

/-- In-place update of the cell stored under key `k` (the Python
`self._registers[parent].write(value)` mutates an existing cell; the key
set never changes). -/
def updateAssoc (l : RegFileState) (k : String) (v : Value) : RegFileState :=
  l.map fun p => if p.1 = k then (k, v) else p

/-- Embeds `Aarch64RegisterFile.read`: resolve the alias, fetch the parent cell,
and extract the low bits when the resolved width is below the parent's. -/
def Aarch64RegisterFile.read (st : RegFileState) (register : String) :
    Except RegError Value :=
  if rfContains register then
    let name := aliasOf register
    match aarch64Table.lookup name with
    | some rs =>
      match st.lookup rs.parent with
      | some value =>
        if name ≠ rs.parent then
          match aarch64Table.lookup rs.parent with
          | some ps =>
            if rs.size < ps.size then .ok (EXTRACT value 0 rs.size)
            else .ok value
          | none => .error .keyError
        else .ok value
      | none => .error .keyError
    | none => .error .keyError
  else .error .invalidRegisterError

/-- Embeds `Aarch64RegisterFile.write`: resolve the alias, require the value to
fit in the resolved width, and replace the parent cell's entire stored
value. -/
def Aarch64RegisterFile.write (st : RegFileState) (register : String)
    (value : Nat) : Except RegError RegFileState :=
  if rfContains register then
    let name := aliasOf register
    match aarch64Table.lookup name with
    | some rs =>
      if value ≤ 2 ^ rs.size - 1 then
        match st.lookup rs.parent with
        | some _ => .ok (updateAssoc st rs.parent (.concrete value))
        | none => .error .keyError
      else .error .valueOutOfRangeError
    | none => .error .keyError
  else .error .invalidRegisterError

/-! ### Structural lemmas about the table and the register cache -/

theorem lookup_all {β : Type} (l : List (String × β)) (f : String × β → Bool)
    (hall : l.all f = true) :
    ∀ k v, l.lookup k = some v → f (k, v) = true := by
  induction l with
  | nil => intro k v h; simp [List.lookup] at h
  | cons a t ih =>
    intro k v h
    rw [List.all_cons, Bool.and_eq_true] at hall
    obtain ⟨k', b⟩ := a
    by_cases hk : (k == k') = true
    · have hke : k = k' := by simpa using hk
      simp only [List.lookup, hk] at h
      injection h with h
      subst hke; subst h
      exact hall.1
    · rw [Bool.not_eq_true] at hk
      simp only [List.lookup, hk] at h
      exact ih hall.2 k v h

/-- Every key of the register table is untouched by the alias layer. -/
theorem table_key_not_alias {k : String} {rs : Regspec}
    (h : aarch64Table.lookup k = some rs) : aarch64Aliases.lookup k = none := by
  have hall : (aarch64Table.all fun p => (aarch64Aliases.lookup p.1).isNone) = true := by
    decide
  have h2 := lookup_all _ _ hall k rs h
  simpa [Option.isNone_iff_eq_none] using h2

theorem aliasOf_table_key {k : String} {rs : Regspec}
    (h : aarch64Table.lookup k = some rs) : aliasOf k = k := by
  simp [aliasOf, table_key_not_alias h]

theorem rfContains_of_table {k : String} {rs : Regspec}
    (h : aarch64Table.lookup k = some rs) : rfContains k = true := by
  simp [rfContains, h]

/-- The parent of every table entry is itself a table key whose parent is
itself (aliasing is idempotent/closed). -/
theorem parent_self {k : String} {rs : Regspec}
    (h : aarch64Table.lookup k = some rs) :
    ∃ ps, aarch64Table.lookup rs.parent = some ps ∧ ps.parent = rs.parent := by
  have hall : (aarch64Table.all fun p =>
      match aarch64Table.lookup p.2.parent with
      | some ps => ps.parent == p.2.parent
      | none => false) = true := by decide
  have h2 := lookup_all _ _ hall k rs h
  simp only at h2
  cases hlp : aarch64Table.lookup rs.parent with
  | none => rw [hlp] at h2; simp at h2
  | some ps =>
    rw [hlp] at h2
    exact ⟨ps, rfl, by simpa using h2⟩

theorem lookup_updateAssoc_self (l : RegFileState) (k : String) (v w : Value)
    (h : l.lookup k = some w) :
    (updateAssoc l k v).lookup k = some v := by
  induction l with
  | nil => simp [List.lookup] at h
  | cons a t ih =>
    obtain ⟨k', b⟩ := a
    by_cases hk : (k == k') = true
    · have hke : k = k' := by simpa using hk
      subst hke
      show List.lookup k ((if (k, b).1 = k then (k, v) else (k, b)) :: updateAssoc t k v) = some v
      rw [if_pos rfl]
      simp [List.lookup]
    · rw [Bool.not_eq_true] at hk
      have hne : k' ≠ k := by
        intro he; subst he; simp at hk
      simp only [List.lookup, hk] at h
      have ht := ih h
      simp only [updateAssoc, List.map_cons] at ht ⊢
      rw [if_neg hne]
      simpa [List.lookup, hk] using ht

theorem EXTRACT_concrete (n width : Nat) :
    EXTRACT (.concrete n) 0 width = .concrete (n % 2 ^ width) := by
  simp [EXTRACT, Nat.shiftRight_zero, Nat.and_pow_two_sub_one_eq_mod]

/-- A recognized in-range write replaces the parent cell. -/
theorem write_eq_ok {r : String} {rs : Regspec}
    (hr : aarch64Table.lookup r = some rs)
    {st : RegFileState} {old : Value} (hst : st.lookup rs.parent = some old)
    {v : Nat} (hv : v < 2 ^ rs.size) :
    Aarch64RegisterFile.write st r v =
      .ok (updateAssoc st rs.parent (.concrete v)) := by
  have hc := rfContains_of_table hr
  have ha := aliasOf_table_key hr
  have hb : v ≤ 2 ^ rs.size - 1 := by
    have h1 : 0 < 2 ^ rs.size := Nat.two_pow_pos rs.size
    omega
  simp [Aarch64RegisterFile.write, hc, ha, hr, hst, hb]

/-- Reading a register that is its own parent returns the cell's stored
value unchanged. -/
theorem read_parent_eq {p : String} {ps : Regspec}
    (hp : aarch64Table.lookup p = some ps) (hself : ps.parent = p)
    {st : RegFileState} {val : Value} (hst : st.lookup p = some val) :
    Aarch64RegisterFile.read st p = .ok val := by
  have hc := rfContains_of_table hp
  have ha := aliasOf_table_key hp
  have hst' : st.lookup ps.parent = some val := by rw [hself]; exact hst
  simp [Aarch64RegisterFile.read, hc, ha, hp, hst, hst', hself]

/-- Reading a name narrower than its parent extracts the low bits of the
parent cell's stored value. -/
theorem read_narrow_eq {w : String} {rs ps : Regspec}
    (hw : aarch64Table.lookup w = some rs)
    (hp : aarch64Table.lookup rs.parent = some ps)
    (hlt : rs.size < ps.size)
    {st : RegFileState} {val : Value} (hst : st.lookup rs.parent = some val) :
    Aarch64RegisterFile.read st w = .ok (EXTRACT val 0 rs.size) := by
  have hc := rfContains_of_table hw
  have ha := aliasOf_table_key hw
  have hne : w ≠ rs.parent := by
    intro he
    rw [he] at hw
    rw [hw] at hp
    injection hp with hpe
    rw [hpe] at hlt
    omega
  simp [Aarch64RegisterFile.read, hc, ha, hw, hst, hne, hp, hlt]

/-! ### Claim theorems: register file -/

/-- C1: for every narrow alias `W` of a strictly wider parent `P`,
`write(W, v)` with `v < 2^width(W)` replaces the parent cell's entire
stored value with `v` (no merge), so `read(P)` returns exactly `v`, whose
bits above `width(W)` are all zero. -/
theorem narrow_write_replaces_parent (w : String) (rs ps : Regspec)
    (hw : aarch64Table.lookup w = some rs)
    (hp : aarch64Table.lookup rs.parent = some ps)
    (hlt : rs.size < ps.size)
    (st : RegFileState) (old : Value) (hst : st.lookup rs.parent = some old)
    (v : Nat) (hv : v < 2 ^ rs.size) :
    Aarch64RegisterFile.write st w v =
      .ok (updateAssoc st rs.parent (.concrete v)) ∧
    Aarch64RegisterFile.read (updateAssoc st rs.parent (.concrete v))
      rs.parent = .ok (.concrete v) ∧
    v < 2 ^ rs.size := by
  refine ⟨write_eq_ok hw hst hv, ?_, hv⟩
  obtain ⟨ps', hlp, hself⟩ := parent_self hw
  rw [hp] at hlp
  injection hlp with hpe
  subst hpe
  exact read_parent_eq hp hself
    (lookup_updateAssoc_self st rs.parent (.concrete v) old hst)

/-- Witness for C1: `write(W0, 1)` then `read(X0)` returns exactly `1`. -/
theorem narrow_write_replaces_parent_witness :
    Aarch64RegisterFile.write initRegisters "W0" 1 =
      .ok (updateAssoc initRegisters "X0" (.concrete 1)) ∧
    Aarch64RegisterFile.read (updateAssoc initRegisters "X0" (.concrete 1))
      "X0" = .ok (.concrete 1) ∧
    (1 : Nat) < 2 ^ 32 :=
  narrow_write_replaces_parent "W0" ⟨"X0", 32⟩ ⟨"X0", 64⟩ (by decide)
    (by decide) (by decide) initRegisters (.concrete 0) (by decide) 1
    (by norm_num)

/-- C2: for every top-level (parent) register `R` and every `v` below
`2^width(R)`, `write(R, v)` then `read(R)` returns `v`. -/
theorem toplevel_write_read_roundtrip (r : String) (rs : Regspec)
    (hr : aarch64Table.lookup r = some rs) (hself : rs.parent = r)
    (st : RegFileState) (old : Value) (hst : st.lookup r = some old)
    (v : Nat) (hv : v < 2 ^ rs.size) :
    ∃ st', Aarch64RegisterFile.write st r v = .ok st' ∧
      Aarch64RegisterFile.read st' r = .ok (.concrete v) := by
  have hst' : st.lookup rs.parent = some old := by rw [hself]; exact hst
  refine ⟨updateAssoc st rs.parent (.concrete v), write_eq_ok hr hst' hv, ?_⟩
  have hl := lookup_updateAssoc_self st rs.parent (.concrete v) old hst'
  rw [hself] at hl
  have : updateAssoc st rs.parent (.concrete v) = updateAssoc st r (.concrete v) := by
    rw [hself]
  rw [this]
  exact read_parent_eq hr hself hl

/-- Witness for C2: `write(SP, 42)` then `read(SP)` returns `42`. -/
theorem toplevel_write_read_roundtrip_witness :
    ∃ st', Aarch64RegisterFile.write initRegisters "SP" 42 = .ok st' ∧
      Aarch64RegisterFile.read st' "SP" = .ok (.concrete 42) :=
  toplevel_write_read_roundtrip "SP" ⟨"SP", 64⟩ (by decide) rfl
    initRegisters (.concrete 0) (by decide) 42 (by norm_num)

/-- C3: for every name whose resolved width is below its parent's declared
width, `read` returns the low `width` bits of the parent cell's stored
value — via `EXTRACT` uniformly for concrete and symbolic stored values,
and `v mod 2^width` when the stored value is concrete. -/
theorem narrow_read_low_bits (w : String) (rs ps : Regspec)
    (hw : aarch64Table.lookup w = some rs)
    (hp : aarch64Table.lookup rs.parent = some ps)
    (hlt : rs.size < ps.size)
    (st : RegFileState) (val : Value)
    (hst : st.lookup rs.parent = some val) :
    Aarch64RegisterFile.read st w = .ok (EXTRACT val 0 rs.size) ∧
    ∀ n : Nat, val = .concrete n →
      Aarch64RegisterFile.read st w = .ok (.concrete (n % 2 ^ rs.size)) := by
  refine ⟨read_narrow_eq hw hp hlt hst, ?_⟩
  intro n hn
  subst hn
  rw [read_narrow_eq hw hp hlt hst, EXTRACT_concrete]

/-- Witness for C3: with `0xFFFFFFFF00000001` stored in `X0`, `read(W0)`
returns `0x00000001`. -/
theorem narrow_read_low_bits_witness :
    Aarch64RegisterFile.read
      (updateAssoc initRegisters "X0" (.concrete 0xFFFFFFFF00000001)) "W0" =
      .ok (.concrete 0x00000001) := by
  have h := (narrow_read_low_bits "W0" ⟨"X0", 32⟩ ⟨"X0", 64⟩ (by decide)
    (by decide) (by decide)
    (updateAssoc initRegisters "X0" (.concrete 0xFFFFFFFF00000001))
    (.concrete 0xFFFFFFFF00000001) (by decide)).2 0xFFFFFFFF00000001 rfl
  rw [h]
  norm_num

/-- C4: writing any recognized register with a value of at least
`2^width` fails with `ValueOutOfRangeError` and returns no new state. -/
theorem write_out_of_range_fails (r : String) (rs : Regspec)
    (hres : aarch64Table.lookup (aliasOf r) = some rs)
    (st : RegFileState) (v : Nat) (hv : 2 ^ rs.size ≤ v) :
    Aarch64RegisterFile.write st r v = .error .valueOutOfRangeError := by
  have hc : rfContains r = true := by
    unfold rfContains
    cases hna : aarch64Aliases.lookup r with
    | some a => simp
    | none =>
      have he : aliasOf r = r := by simp [aliasOf, hna]
      rw [he] at hres
      simp [hres]
  have hb : ¬ (v ≤ 2 ^ rs.size - 1) := by
    have h1 : 0 < 2 ^ rs.size := Nat.two_pow_pos rs.size
    omega
  simp [Aarch64RegisterFile.write, hc, hres, hb]

/-- Witness for C4: `write(X0, 2^64)` fails with `ValueOutOfRangeError`. -/
theorem write_out_of_range_fails_witness :
    Aarch64RegisterFile.write initRegisters "X0" (2 ^ 64) =
      .error .valueOutOfRangeError :=
  write_out_of_range_fails "X0" ⟨"X0", 64⟩ (by decide) initRegisters
    (2 ^ 64) (by norm_num)

/-- C5: a name that is neither a table key nor an alias key makes both
`read` and `write` fail with `InvalidRegisterError`, for every state (no
state is returned, so none is changed). -/
theorem unknown_register_fails (name : String)
    (ha : aarch64Aliases.lookup name = none)
    (ht : aarch64Table.lookup name = none) :
    (∀ st, Aarch64RegisterFile.read st name = .error .invalidRegisterError) ∧
    (∀ st v, Aarch64RegisterFile.write st name v =
      .error .invalidRegisterError) := by
  have hc : rfContains name = false := by simp [rfContains, ha, ht]
  constructor
  · intro st; simp [Aarch64RegisterFile.read, hc]
  · intro st v; simp [Aarch64RegisterFile.write, hc]

/-- Witness for C5: `read("NOPE")` and `write("NOPE", 0)` both fail with
`InvalidRegisterError`. -/
theorem unknown_register_fails_witness :
    Aarch64RegisterFile.read initRegisters "NOPE" =
      .error .invalidRegisterError ∧
    Aarch64RegisterFile.write initRegisters "NOPE" 0 =
      .error .invalidRegisterError :=
  ⟨(unknown_register_fails "NOPE" (by decide) (by decide)).1 initRegisters,
   (unknown_register_fails "NOPE" (by decide) (by decide)).2 initRegisters 0⟩

/-- C10: the zero register is an ordinary storage cell: `write(XZR, v)`
stores `v` persistently, `read(XZR)` returns `v` (not 0), and
`read(WZR)` returns the low 32 bits of `v`. -/
theorem zero_register_plain_storage (v : Nat) (hv : v < 2 ^ 64)
    (st : RegFileState) (old : Value) (hst : st.lookup "XZR" = some old) :
    ∃ st', Aarch64RegisterFile.write st "XZR" v = .ok st' ∧
      Aarch64RegisterFile.read st' "XZR" = .ok (.concrete v) ∧
      Aarch64RegisterFile.read st' "WZR" = .ok (.concrete (v % 2 ^ 32)) := by
  have hx : aarch64Table.lookup "XZR" = some ⟨"XZR", 64⟩ := by decide
  have hwz : aarch64Table.lookup "WZR" = some ⟨"XZR", 32⟩ := by decide
  refine ⟨updateAssoc st "XZR" (.concrete v), write_eq_ok hx hst hv, ?_, ?_⟩
  · exact read_parent_eq hx rfl
      (lookup_updateAssoc_self st "XZR" (.concrete v) old hst)
  · have h := read_narrow_eq hwz hx (by norm_num)
      (lookup_updateAssoc_self st "XZR" (.concrete v) old hst)
    rw [h, EXTRACT_concrete]

/-- Witness for C10: `write(XZR, 0xDEADBEEF00000001)`; `read(XZR)` returns
it unchanged (not 0) and `read(WZR)` returns its low 32 bits. -/
theorem zero_register_plain_storage_witness :
    ∃ st', Aarch64RegisterFile.write initRegisters "XZR"
        0xDEADBEEF00000001 = .ok st' ∧
      Aarch64RegisterFile.read st' "XZR" =
        .ok (.concrete 0xDEADBEEF00000001) ∧
      Aarch64RegisterFile.read st' "WZR" =
        .ok (.concrete (0xDEADBEEF00000001 % 2 ^ 32)) :=
  zero_register_plain_storage 0xDEADBEEF00000001 (by norm_num)
    initRegisters (.concrete 0) (by decide)

/-! ### ABIs -/

/-- An argument location yielded by an ABI generator: a register name or
a stack address. -/
inductive ArgLoc where
  | reg (name : String)
  | stack (address : Nat)
deriving DecidableEq, Repr

/-- Embeds `Aarch64Cpu.address_bit_size`. -/
def address_bit_size : Nat := 64

/-- Modelled from the spec: the base `Abi.values_from` (`abstractcpu.py`,
not under `src/`): successive stack slots at increasing pointer-sized
offsets from `base`, one slot per request, never revisited. -/
def values_from (base : Nat) (k : Nat) : Nat :=
  base + (address_bit_size / 8) * k

/-- The tuple `('X0', ..., 'X7')` iterated first by
`Aarch64CdeclAbi.get_arguments`. -/
def cdeclArgumentRegisters : List String :=
  ["X0", "X1", "X2", "X3", "X4", "X5", "X6", "X7"]

/-- Embeds `Aarch64CdeclAbi.get_arguments` as the `n`-th location the generator
yields, given the current stack-pointer value `sp`: the fixed argument
registers first, then — once exhausted — the stack slots of
`values_from(STACK)`. -/
def Aarch64CdeclAbi.get_arguments (sp : Nat) (n : Nat) : ArgLoc :=
  if h : n < cdeclArgumentRegisters.length then
    .reg (cdeclArgumentRegisters.get ⟨n, h⟩)
  else
    .stack (values_from sp (n - cdeclArgumentRegisters.length))

/-- Embeds `Aarch64LinuxSyscallAbi.get_arguments`: the finite generator
`('X{}'.format(i) for i in range(6))`. -/
def Aarch64LinuxSyscallAbi.get_arguments : List ArgLoc :=
  (List.range 6).map fun i => .reg ("X" ++ toString i)

theorem cdecl_reg_slot (sp n : Nat) (hn : n < 8) :
    Aarch64CdeclAbi.get_arguments sp n =
      .reg (cdeclArgumentRegisters.get
        ⟨n, by simpa [cdeclArgumentRegisters] using hn⟩) := by
  rw [Aarch64CdeclAbi.get_arguments,
    dif_pos (by simpa [cdeclArgumentRegisters] using hn)]

theorem cdecl_stack_slot (sp n : Nat) (hn : 8 ≤ n) :
    Aarch64CdeclAbi.get_arguments sp n = .stack (sp + 8 * (n - 8)) := by
  rw [Aarch64CdeclAbi.get_arguments,
    dif_neg (by simp [cdeclArgumentRegisters]; omega)]
  simp [values_from, address_bit_size, cdeclArgumentRegisters]

theorem cdecl_get_arguments_injective (sp m n : Nat)
    (h : Aarch64CdeclAbi.get_arguments sp m = Aarch64CdeclAbi.get_arguments sp n) :
    m = n := by
  rcases Nat.lt_or_ge m 8 with hm | hm <;> rcases Nat.lt_or_ge n 8 with hn | hn
  · rw [cdecl_reg_slot sp m hm, cdecl_reg_slot sp n hn] at h
    injection h with h
    have hnd : cdeclArgumentRegisters.Nodup := by decide
    have h2 := List.nodup_iff_injective_get.mp hnd h
    simpa using congrArg Fin.val h2
  · rw [cdecl_reg_slot sp m hm, cdecl_stack_slot sp n hn] at h
    cases h
  · rw [cdecl_stack_slot sp m hm, cdecl_reg_slot sp n hn] at h
    cases h
  · rw [cdecl_stack_slot sp m hm, cdecl_stack_slot sp n hn] at h
    injection h with h
    omega

/-- C7: the cdecl ABI yields the 8 argument registers X0..X7 in order and
only then successive distinct stack slots at increasing offsets from the
stack pointer, each location exactly once. -/
theorem cdecl_argument_order (sp : Nat) :
    ((List.range 10).map (Aarch64CdeclAbi.get_arguments sp) =
      [.reg "X0", .reg "X1", .reg "X2", .reg "X3", .reg "X4", .reg "X5",
       .reg "X6", .reg "X7",
       .stack (sp + 8 * 0), .stack (sp + 8 * 1)]) ∧
    (∀ n, 8 ≤ n →
      Aarch64CdeclAbi.get_arguments sp n = .stack (sp + 8 * (n - 8))) ∧
    (∀ m n, 8 ≤ m → m < n → sp + 8 * (m - 8) < sp + 8 * (n - 8)) ∧
    (∀ m n, Aarch64CdeclAbi.get_arguments sp m =
      Aarch64CdeclAbi.get_arguments sp n → m = n) := by
  refine ⟨?_, fun n hn => cdecl_stack_slot sp n hn, fun m n hm hmn => by omega,
    fun m n h => cdecl_get_arguments_injective sp m n h⟩
  have h8 := cdecl_stack_slot sp 8 (by norm_num)
  have h9 := cdecl_stack_slot sp 9 (by norm_num)
  norm_num at h8 h9
  simp [List.range_succ, cdecl_reg_slot, cdeclArgumentRegisters, h8, h9]
  decide

/-- Witness for C7: with the stack pointer at `0x7FFF0000`, the 9th and
10th requested locations are the two lowest stack slots, in
increasing-address order. -/
theorem cdecl_argument_order_witness :
    Aarch64CdeclAbi.get_arguments 0x7FFF0000 8 =
      .stack (0x7FFF0000 + 8 * (8 - 8)) ∧
    Aarch64CdeclAbi.get_arguments 0x7FFF0000 9 =
      .stack (0x7FFF0000 + 8 * (9 - 8)) ∧
    0x7FFF0000 + 8 * (8 - 8) < 0x7FFF0000 + 8 * (9 - 8) :=
  ⟨(cdecl_argument_order 0x7FFF0000).2.1 8 (by norm_num),
   (cdecl_argument_order 0x7FFF0000).2.1 9 (by norm_num),
   (cdecl_argument_order 0x7FFF0000).2.2.1 8 9 (by norm_num) (by norm_num)⟩

/-- C8: the Linux syscall ABI yields exactly the 6 registers X0..X5 —
never more than 6 locations no matter how many are requested, and never a
stack slot. -/
theorem syscall_arguments_capped :
    Aarch64LinuxSyscallAbi.get_arguments =
      [.reg "X0", .reg "X1", .reg "X2", .reg "X3", .reg "X4", .reg "X5"] ∧
    Aarch64LinuxSyscallAbi.get_arguments.length = 6 ∧
    (∀ k, (Aarch64LinuxSyscallAbi.get_arguments.take k).length ≤ 6) ∧
    (∀ a, ArgLoc.stack a ∉ Aarch64LinuxSyscallAbi.get_arguments) := by
  have he : Aarch64LinuxSyscallAbi.get_arguments =
      [.reg "X0", .reg "X1", .reg "X2", .reg "X3", .reg "X4", .reg "X5"] := by
    decide
  refine ⟨he, by rw [he]; rfl, ?_, ?_⟩
  · intro k
    rw [List.length_take, he]
    exact le_trans (Nat.min_le_right _ _) (by norm_num)
  · intro a ha
    rw [he] at ha
    simp at ha

/-- Witness for C8: requesting 100 locations still yields at most 6, and
the slot at address 0 is never yielded. -/
theorem syscall_arguments_capped_witness :
    (Aarch64LinuxSyscallAbi.get_arguments.take 100).length ≤ 6 ∧
    ArgLoc.stack 0 ∉ Aarch64LinuxSyscallAbi.get_arguments :=
  ⟨syscall_arguments_capped.2.2.1 100, syscall_arguments_capped.2.2.2 0⟩

/-! ### Operands -/

/-- The capstone AArch64 operand kinds asserted in
`Aarch64Operand.__init__`. -/
inductive OpType where
  | reg
  | mem
  | imm
  | cimm
  | fp
deriving DecidableEq, Repr

/-- A decoded operand descriptor: the kind tag plus the fields the
modeled paths use. -/
structure Op where
  type : OpType
  reg : String
  imm : Nat
deriving DecidableEq, Repr

/-- Embeds `Aarch64Operand.read`: the width override and carry request are
unsupported (`assert nbits is None`, `assert not with_carry`); register
operands delegate to the register file, immediates return their literal,
and every other kind fails (`raise NotImplementedError`). -/
def Aarch64Operand.read (st : RegFileState) (op : Op)
    (nbits : Option Nat) (withCarry : Bool) : Except RegError Value :=
  match nbits with
  | some _ => .error .unsupportedOperandKindError
  | none =>
    if withCarry then .error .unsupportedOperandKindError
    else
      match op.type with
      | .reg => Aarch64RegisterFile.read st op.reg
      | .imm => .ok (.concrete op.imm)
      | _ => .error .unsupportedOperandKindError

/-- Embeds `Aarch64Operand.write`: the width override is unsupported
(`assert nbits is None`); register operands delegate to the register
file, every other kind fails (`raise NotImplementedError`). -/
def Aarch64Operand.write (st : RegFileState) (op : Op) (value : Nat)
    (nbits : Option Nat) : Except RegError RegFileState :=
  match nbits with
  | some _ => .error .unsupportedOperandKindError
  | none =>
    match op.type with
    | .reg => Aarch64RegisterFile.write st op.reg value
    | _ => .error .unsupportedOperandKindError

/-- C9: unmodeled operand combinations fail with
`UnsupportedOperandKindError` instead of approximating: `read` fails for
the memory, compile-time-immediate and floating-point kinds, `write`
fails for every kind other than register, and a width override or carry
request makes `read` fail rather than being silently ignored. -/
theorem operand_unsupported_errors (st : RegFileState) (op : Op) :
    ((op.type = .mem ∨ op.type = .cimm ∨ op.type = .fp) →
      Aarch64Operand.read st op none false =
        .error .unsupportedOperandKindError) ∧
    (op.type ≠ .reg → ∀ v, Aarch64Operand.write st op v none =
      .error .unsupportedOperandKindError) ∧
    (∀ w c, Aarch64Operand.read st op (some w) c =
      .error .unsupportedOperandKindError) ∧
    (Aarch64Operand.read st op none true =
      .error .unsupportedOperandKindError) := by
  refine ⟨?_, ?_, fun w c => rfl, ?_⟩
  · rintro (h | h | h) <;> simp [Aarch64Operand.read, h]
  · intro h v
    cases ht : op.type <;> simp [Aarch64Operand.write, ht]
    exact absurd ht h
  · simp [Aarch64Operand.read]

/-- Witness for C9 at concrete operands: a memory operand fails both
`read` and `write`, and a register operand fails under a width override
and under a carry request. -/
theorem operand_unsupported_errors_witness :
    Aarch64Operand.read initRegisters ⟨.mem, "X0", 0⟩ none false =
      .error .unsupportedOperandKindError ∧
    Aarch64Operand.write initRegisters ⟨.mem, "X0", 0⟩ 0 none =
      .error .unsupportedOperandKindError ∧
    Aarch64Operand.read initRegisters ⟨.reg, "X0", 0⟩ (some 32) false =
      .error .unsupportedOperandKindError ∧
    Aarch64Operand.read initRegisters ⟨.reg, "X0", 0⟩ none true =
      .error .unsupportedOperandKindError :=
  ⟨(operand_unsupported_errors initRegisters ⟨.mem, "X0", 0⟩).1 (Or.inl rfl),
   (operand_unsupported_errors initRegisters ⟨.mem, "X0", 0⟩).2.1
     (by decide) 0,
   (operand_unsupported_errors initRegisters ⟨.reg, "X0", 0⟩).2.2.1 32 false,
   (operand_unsupported_errors initRegisters ⟨.reg, "X0", 0⟩).2.2.2⟩

/-! ### Instruction mnemonic canonicalization -/

/-- Embeds `INSTRUCTION_MAPPINGS`: maps different instructions to a
single implementation; currently empty ("Avoiding this for now"). -/
def INSTRUCTION_MAPPINGS : List (String × String) := []

/-- The decoder-reported data `canonicalize_instruction_name` consumes:
capstone's `insn_name()` and the textual `mnemonic` of the instruction. -/
structure Insn where
  insnName : String
  mnemonic : String
deriving DecidableEq, Repr

/-- Python's `str.startswith`, as a prefix test on the character list. -/
def pyStartswith (s pre : String) : Bool :=
  pre.data.isPrefixOf s.data

/-- Embeds `Aarch64Cpu.canonicalize_instruction_name`: uppercase the
decoder name; bypass the capstone bug that labels some shift
instructions `mov`, disambiguating by the mnemonic text; finally apply
`INSTRUCTION_MAPPINGS`. -/
def canonicalize_instruction_name (instr : Insn) : String :=
  let name := instr.insnName.toUpper
  if name = "MOV" then
    if pyStartswith instr.mnemonic "lsr" then "LSR"
    else if pyStartswith instr.mnemonic "lsl" then "LSL"
    else if pyStartswith instr.mnemonic "asr" then "ASR"
    else (INSTRUCTION_MAPPINGS.lookup name).getD name
  else (INSTRUCTION_MAPPINGS.lookup name).getD name

theorem stringToUpper_eq (s : String) : s.toUpper = ⟨s.data.map Char.toUpper⟩ :=
  String.map_eq Char.toUpper s

theorem char_toNat_ofNat_valid {n : Nat} (h : n.isValidChar) :
    (Char.ofNat n).toNat = n := by
  simp [Char.ofNat, h, Char.ofNatAux, Char.toNat]
  rfl

theorem charToUpper_idem (c : Char) : c.toUpper.toUpper = c.toUpper := by
  unfold Char.toUpper
  by_cases h : c.toNat ≥ 97 ∧ c.toNat ≤ 122
  · rw [if_pos h]
    have hv : Nat.isValidChar (c.toNat - 32) := Or.inl (by omega)
    have ht : (Char.ofNat (c.toNat - 32)).toNat = c.toNat - 32 :=
      char_toNat_ofNat_valid hv
    rw [if_neg]
    rw [ht]
    omega
  · rw [if_neg h, if_neg h]

theorem stringToUpper_idem (s : String) : s.toUpper.toUpper = s.toUpper := by
  rw [stringToUpper_eq s, stringToUpper_eq]
  congr 1
  show (s.data.map Char.toUpper).map Char.toUpper = s.data.map Char.toUpper
  rw [List.map_map]
  exact List.map_congr_left fun c _ => charToUpper_idem c

/-- Two same-length prefixes of one string are equal. -/
theorem pyStartswith_eq_of_length {m p q : String}
    (hp : pyStartswith m p = true) (hq : pyStartswith m q = true)
    (hl : p.data.length = q.data.length) : p.data = q.data := by
  rw [pyStartswith, List.isPrefixOf_iff_prefix] at hp hq
  rcases List.prefix_or_prefix_of_prefix hp hq with h | h
  · exact h.eq_of_length hl
  · exact (h.eq_of_length hl.symm).symm

theorem not_startswith_lsr_of_lsl {m : String}
    (h : pyStartswith m "lsl" = true) : pyStartswith m "lsr" = false := by
  by_contra hc
  rw [Bool.not_eq_false] at hc
  have := pyStartswith_eq_of_length hc h (by decide)
  simp at this

theorem not_startswith_lsr_of_asr {m : String}
    (h : pyStartswith m "asr" = true) : pyStartswith m "lsr" = false := by
  by_contra hc
  rw [Bool.not_eq_false] at hc
  have := pyStartswith_eq_of_length hc h (by decide)
  simp at this

theorem not_startswith_lsl_of_asr {m : String}
    (h : pyStartswith m "asr" = true) : pyStartswith m "lsl" = false := by
  by_contra hc
  rw [Bool.not_eq_false] at hc
  have := pyStartswith_eq_of_length hc h (by decide)
  simp at this

theorem toUpper_LSR : ("LSR" : String).toUpper = "LSR" := by
  rw [stringToUpper_eq]; decide

theorem toUpper_LSL : ("LSL" : String).toUpper = "LSL" := by
  rw [stringToUpper_eq]; decide

theorem toUpper_ASR : ("ASR" : String).toUpper = "ASR" := by
  rw [stringToUpper_eq]; decide

theorem toUpper_MOV : ("MOV" : String).toUpper = "MOV" := by
  rw [stringToUpper_eq]; decide

/-- C6: canonicalization is deterministic and idempotent — re-canonicalizing
an instruction whose decoder name is already the canonical name is a no-op
— and an instruction decoded under the generic name MOV whose mnemonic
text starts with `lsr`, `lsl` or `asr` resolves to LSR, LSL or ASR
respectively. -/
theorem canonicalize_idempotent_and_disambiguates (i : Insn) :
    (canonicalize_instruction_name
        ⟨canonicalize_instruction_name i, i.mnemonic⟩ =
      canonicalize_instruction_name i) ∧
    (i.insnName.toUpper = "MOV" →
      (pyStartswith i.mnemonic "lsr" = true →
        canonicalize_instruction_name i = "LSR") ∧
      (pyStartswith i.mnemonic "lsl" = true →
        canonicalize_instruction_name i = "LSL") ∧
      (pyStartswith i.mnemonic "asr" = true →
        canonicalize_instruction_name i = "ASR")) := by
  constructor
  · by_cases hm : i.insnName.toUpper = "MOV"
    · by_cases h1 : pyStartswith i.mnemonic "lsr" = true
      · have hc : canonicalize_instruction_name i = "LSR" := by
          simp [canonicalize_instruction_name, hm, h1]
        rw [hc]
        simp [canonicalize_instruction_name, toUpper_LSR,
          INSTRUCTION_MAPPINGS]
      · by_cases h2 : pyStartswith i.mnemonic "lsl" = true
        · have hc : canonicalize_instruction_name i = "LSL" := by
            simp [canonicalize_instruction_name, hm, h1, h2]
          rw [hc]
          simp [canonicalize_instruction_name, toUpper_LSL,
            INSTRUCTION_MAPPINGS]
        · by_cases h3 : pyStartswith i.mnemonic "asr" = true
          · have hc : canonicalize_instruction_name i = "ASR" := by
              simp [canonicalize_instruction_name, hm, h1, h2, h3]
            rw [hc]
            simp [canonicalize_instruction_name, toUpper_ASR,
              INSTRUCTION_MAPPINGS]
          · have hc : canonicalize_instruction_name i = "MOV" := by
              simp [canonicalize_instruction_name, hm, h1, h2, h3,
                INSTRUCTION_MAPPINGS]
            rw [hc]
            simp [canonicalize_instruction_name, toUpper_MOV, h1, h2, h3,
              INSTRUCTION_MAPPINGS]
    · have hc : canonicalize_instruction_name i = i.insnName.toUpper := by
        simp [canonicalize_instruction_name, hm, INSTRUCTION_MAPPINGS]
      rw [hc]
      simp [canonicalize_instruction_name, stringToUpper_idem, hm,
        INSTRUCTION_MAPPINGS]
  · intro hm
    refine ⟨?_, ?_, ?_⟩
    · intro h1
      simp [canonicalize_instruction_name, hm, h1]
    · intro h2
      have h1 := not_startswith_lsr_of_lsl h2
      simp [canonicalize_instruction_name, hm, h1, h2]
    · intro h3
      have h1 := not_startswith_lsr_of_asr h3
      have h2 := not_startswith_lsl_of_asr h3
      simp [canonicalize_instruction_name, hm, h1, h2, h3]

/-- Witness for C6: the instruction capstone reports as `mov` with
mnemonic text `lsr x0, x1, 2` canonicalizes to LSR, and
canonicalizing the result again is a no-op. -/
theorem canonicalize_idempotent_and_disambiguates_witness :
    canonicalize_instruction_name ⟨"mov", "lsr x0, x1, 2"⟩ = "LSR" ∧
    canonicalize_instruction_name
        ⟨canonicalize_instruction_name ⟨"mov", "lsr x0, x1, 2"⟩,
         "lsr x0, x1, 2"⟩ =
      canonicalize_instruction_name ⟨"mov", "lsr x0, x1, 2"⟩ :=
  ⟨((canonicalize_idempotent_and_disambiguates ⟨"mov", "lsr x0, x1, 2"⟩).2
      (by rw [stringToUpper_eq]; decide)).1 (by decide),
   (canonicalize_idempotent_and_disambiguates ⟨"mov", "lsr x0, x1, 2"⟩).1⟩

end Manticore
